import Mathlib

/-!
# Verification of the figma-cli node-simplification and image-processing core

A shallow embedding, in Lean 4, of the pure computational core of the
`kazuph/figma-cli` repository:

* `removeEmptyKeys` (src/utils/common.ts) over a JSON-like value model;
* `validateImageProcessingOptions` and the TILE-mode tiling arithmetic of
  `processImageBuffer` (src/utils/image-processing.ts);
* `generateCSSShorthand`, `convertColor`, `formatRGBAColor`, `parsePaint`
  and the gradient conversion pipeline (src/utils/common.ts);
* the visibility-filtering recursion of `parseNode`
  (src/services/simplify-node-response.ts);
* `limitNodeDepth` (src/figma-cli.ts, src/commands/get-figma-data.ts).

JavaScript numbers are modelled as exact rationals (`ℚ`); `Math.atan2`,
`Math.sqrt` and `Math.pow` are modelled by their exact real-number
counterparts (the claims under verification only evaluate them at inputs
where the IEEE-754 double results are exact, so the model agrees with the
runtime there).  `Math.round(x)` is `⌊x + 1/2⌋`, which is the ECMAScript
definition.  Fallible TypeScript code (`throw`) is modelled with `Except`.
-/

namespace FigmaCli

/-! ## JavaScript numeric primitives -/

/-- ECMAScript `Math.round` on an exact rational: `⌊q + 1/2⌋`. -/
def jsRoundQ (q : ℚ) : ℤ :=
  ⌊q + 1/2⌋

/-- ECMAScript `Math.round` on a real number: `⌊x + 1/2⌋`. -/
noncomputable def jsRoundR (x : ℝ) : ℤ :=
  ⌊x + 1/2⌋

/-- ECMAScript `%` (remainder) for a nonnegative dividend and positive
divisor, which is where the gradient-angle code uses it; on that domain the
truncating JS remainder coincides with the flooring remainder. -/
noncomputable def jsModR (x y : ℝ) : ℝ :=
  x - y * (⌊x / y⌋ : ℤ)

/-- ECMAScript `ToInt32`, used to model the 32-bit `<<` shifts in the hex
color construction. -/
def toInt32 (n : ℤ) : ℤ :=
  (n + 2 ^ 31) % 2 ^ 32 - 2 ^ 31

/-- `Number.prototype.toString(16)` for a nonnegative integer: lowercase
hexadecimal digits, no padding (`Nat.toDigits` emits exactly these). -/
def natToHexString (n : ℕ) : String :=
  String.mk (Nat.toDigits 16 n)

/-- `String(q)` / template-literal stringification of a nonnegative rational.
Faithful to ECMAScript number-to-string for the values the verified claims
evaluate it at: integers, and fractions with denominator dividing 100 (JS
prints the shortest round-tripping decimal, which for such values is the
decimal expansion with trailing zeros removed).  Other rationals — never
reached in any claim — are rendered as exact fractions. -/
def jsNumToStringNonneg (q : ℚ) : String :=
  if q.den = 1 then toString q.num
  else if (q * 100).den = 1 then
    let ip : ℤ := ⌊q⌋
    let fr : ℚ := q - ip
    if (fr * 10).den = 1 then
      toString ip ++ "." ++ toString (fr * 10).num
    else if (fr * 100).num < 10 then
      toString ip ++ ".0" ++ toString (fr * 100).num
    else
      toString ip ++ "." ++ toString (fr * 100).num
  else
    toString q.num ++ "/" ++ toString q.den

/-- `String(q)` for any rational (sign handled as JS does). -/
def jsNumToString (q : ℚ) : String :=
  if q < 0 then "-" ++ jsNumToStringNonneg (-q) else jsNumToStringNonneg q

/-! ## JSON value model and `removeEmptyKeys` (src/utils/common.ts 144–180)

JavaScript runtime values reachable by `removeEmptyKeys` are modelled by a
mutual inductive family: primitive values (including `null` and
`undefined`), arrays, and plain objects (ordered key/value lists, as
`for...in` iterates insertion order). -/

mutual

inductive Json where
  | null : Json
  | undef : Json
  | bool (b : Bool) : Json
  | num (q : ℚ) : Json
  | str (s : String) : Json
  | arr (xs : JsonArr) : Json
  | obj (fs : JsonObj) : Json

inductive JsonArr where
  | nil : JsonArr
  | cons (hd : Json) (tl : JsonArr) : JsonArr

inductive JsonObj where
  | nil : JsonObj
  | cons (key : String) (val : Json) (tl : JsonObj) : JsonObj

end

/-- The skip condition of `removeEmptyKeys`: a cleaned value is dropped from
the rebuilt object when it is `undefined`, an empty array, or an empty
object (`typeof cleanedValue === "object" && cleanedValue !== null &&
Object.keys(cleanedValue).length === 0`; note `null` is kept). -/
def Json.isDroppable : Json → Bool
  | .undef => true
  | .arr .nil => true
  | .obj .nil => true
  | _ => false

mutual

/-- `removeEmptyKeys` (src/utils/common.ts 144–180).  Non-objects (and
`null`) pass through; arrays are mapped element-wise; objects are rebuilt
key by key, recursively cleaning each value and skipping droppable ones. -/
def removeEmptyKeys : Json → Json
  | .arr xs => .arr (removeEmptyKeysArr xs)
  | .obj fs => .obj (removeEmptyKeysObj fs)
  | v => v

/-- The `input.map((item) => removeEmptyKeys(item))` branch. -/
def removeEmptyKeysArr : JsonArr → JsonArr
  | .nil => .nil
  | .cons hd tl => .cons (removeEmptyKeys hd) (removeEmptyKeysArr tl)

/-- The `for (const key in input)` rebuild loop. -/
def removeEmptyKeysObj : JsonObj → JsonObj
  | .nil => .nil
  | .cons k v tl =>
    let cleaned := removeEmptyKeys v
    if cleaned.isDroppable then removeEmptyKeysObj tl
    else .cons k cleaned (removeEmptyKeysObj tl)

end

/-- Length of a modelled JS array. -/
def JsonArr.length : JsonArr → ℕ
  | .nil => 0
  | .cons _ tl => 1 + tl.length

/-- Indexing into a modelled JS array. -/
def JsonArr.get? : JsonArr → ℕ → Option Json
  | .nil, _ => none
  | .cons hd _, 0 => some hd
  | .cons _ tl, n + 1 => tl.get? n

mutual

theorem removeEmptyKeys_idem_aux : ∀ x : Json,
    removeEmptyKeys (removeEmptyKeys x) = removeEmptyKeys x
  | .null => rfl
  | .undef => rfl
  | .bool _ => rfl
  | .num _ => rfl
  | .str _ => rfl
  | .arr xs => by
    simp only [removeEmptyKeys, removeEmptyKeysArr_idem_aux xs]
  | .obj fs => by
    simp only [removeEmptyKeys, removeEmptyKeysObj_idem_aux fs]

theorem removeEmptyKeysArr_idem_aux : ∀ xs : JsonArr,
    removeEmptyKeysArr (removeEmptyKeysArr xs) = removeEmptyKeysArr xs
  | .nil => rfl
  | .cons hd tl => by
    simp only [removeEmptyKeysArr, removeEmptyKeys_idem_aux hd,
      removeEmptyKeysArr_idem_aux tl]

theorem removeEmptyKeysObj_idem_aux : ∀ fs : JsonObj,
    removeEmptyKeysObj (removeEmptyKeysObj fs) = removeEmptyKeysObj fs
  | .nil => rfl
  | .cons k v tl => by
    by_cases h : (removeEmptyKeys v).isDroppable
    · simp only [removeEmptyKeysObj, h, if_true, removeEmptyKeysObj_idem_aux tl]
    · simp only [removeEmptyKeysObj, h, if_false,
        removeEmptyKeys_idem_aux v, removeEmptyKeysObj_idem_aux tl]

end

/-- Element-wise action of the pruner on arrays: length is preserved and
every element is pruned in place. -/
theorem removeEmptyKeysArr_get? : ∀ (xs : JsonArr) (i : ℕ),
    (removeEmptyKeysArr xs).get? i = (xs.get? i).map removeEmptyKeys
  | .nil, _ => rfl
  | .cons _ _, 0 => rfl
  | .cons _ tl, n + 1 => removeEmptyKeysArr_get? tl n

theorem removeEmptyKeysArr_length : ∀ xs : JsonArr,
    (removeEmptyKeysArr xs).length = xs.length
  | .nil => rfl
  | .cons _ tl => by
    simp only [removeEmptyKeysArr, JsonArr.length, removeEmptyKeysArr_length tl]

/-- C5.  `removeEmptyKeys` is idempotent: for every nested value built from
scalars, arrays and objects (including ones containing empty containers),
pruning twice deep-equals pruning once. -/
theorem removeEmptyKeys_idempotent (x : Json) :
    removeEmptyKeys (removeEmptyKeys x) = removeEmptyKeys x :=
  removeEmptyKeys_idem_aux x

/-- C10.  The pruner removes vacuous values only when they are object
values: on an array it acts element-wise, so the pruned array has exactly
the same length and element order as the input, and an empty object or
empty array occurring as an array element is preserved in place. -/
theorem removeEmptyKeys_arr_preserves_shape (xs : JsonArr) :
    removeEmptyKeys (.arr xs) = .arr (removeEmptyKeysArr xs)
    ∧ (removeEmptyKeysArr xs).length = xs.length
    ∧ (∀ i : ℕ, (removeEmptyKeysArr xs).get? i = (xs.get? i).map removeEmptyKeys)
    ∧ removeEmptyKeys (.obj .nil) = .obj .nil
    ∧ removeEmptyKeys (.arr .nil) = .arr .nil := by
  refine ⟨rfl, removeEmptyKeysArr_length xs, fun i => removeEmptyKeysArr_get? xs i, rfl, rfl⟩

/-! ## Image processing options and validation
(src/utils/image-processing.ts 12–41, 262–280) -/

/-- `ImageProcessingOptions`.  `mode` is carried as a plain string (the
validator checks membership in the four recognized values at runtime, so an
arbitrary string can reach it); numeric fields are exact rationals. -/
structure ImageProcessingOptions where
  mode : String
  width : Option ℚ
  height : Option ℚ
  background : Option String
  quality : Option ℚ
  preserveAspectRatio : Option Bool
  position : Option String

/-- The four recognized processing modes. -/
def validModes : List String := ["FILL", "FIT", "CROP", "TILE"]

/-- JavaScript truthiness guard `opt && p(opt)` for an optional number:
`undefined` and `0` are falsy, every other (non-NaN) number is truthy. -/
def numTruthyAnd (x : Option ℚ) (p : ℚ → Prop) : Prop :=
  match x with
  | some q => q ≠ 0 ∧ p q
  | none => False

instance instDecidableNumTruthyAnd (x : Option ℚ) (p : ℚ → Prop) [DecidablePred p] :
    Decidable (numTruthyAnd x p) :=
  match x with
  | some q => inferInstanceAs (Decidable (q ≠ 0 ∧ p q))
  | none => inferInstanceAs (Decidable False)

/-- `validateImageProcessingOptions` (src/utils/image-processing.ts
262–280), with `throw` modelled as `Except.error`.  Each numeric check is
guarded by JS truthiness exactly as in the source
(`options.quality && (options.quality < 1 || options.quality > 100)`,
`options.width && options.width <= 0`, etc.). -/
def validateImageProcessingOptions (o : ImageProcessingOptions) : Except String Unit :=
  if o.mode ∉ validModes then
    .error ("Invalid image processing mode: " ++ o.mode)
  else if numTruthyAnd o.quality (fun q => q < 1 ∨ 100 < q) then
    .error "Quality must be between 1 and 100"
  else if numTruthyAnd o.width (fun q => q ≤ 0) then
    .error "Width must be greater than 0"
  else if numTruthyAnd o.height (fun q => q ≤ 0) then
    .error "Height must be greater than 0"
  else
    .ok ()

/-- C2 counterexample.  The options `{mode: "FILL", quality: 0}` supply a
quality lying outside `[1,100]`, so the claim requires a throw, but the
validator accepts them: `0` is falsy, so the quality check is skipped. -/
theorem validateImageProcessingOptions_zero_quality_ok :
    validateImageProcessingOptions ⟨"FILL", none, none, none, some 0, none, none⟩ = .ok ()
    ∧ ¬ (1 ≤ (0 : ℚ) ∧ (0 : ℚ) ≤ 100) := by
  constructor
  · simp [validateImageProcessingOptions, numTruthyAnd, validModes]
  · norm_num

/-- C2 (amended).  `validateImageProcessingOptions` inspects only the
options value (it is a function of the options alone, never of image
bytes), and it accepts exactly when: the mode is one of FILL, FIT, CROP,
TILE; every supplied quality is `0` or lies in `[1,100]`; and every
supplied width or height is `≥ 0`.  Equivalently it throws exactly when the
mode is unrecognized, a supplied nonzero quality lies outside `[1,100]`, or
a supplied width or height is strictly negative — a supplied `0` is never
rejected because of JavaScript falsy short-circuiting. -/
theorem validateImageProcessingOptions_spec (o : ImageProcessingOptions) :
    (validateImageProcessingOptions o = .ok () ↔
      (o.mode ∈ validModes
        ∧ (∀ q : ℚ, o.quality = some q → q = 0 ∨ (1 ≤ q ∧ q ≤ 100))
        ∧ (∀ w : ℚ, o.width = some w → 0 ≤ w)
        ∧ (∀ h : ℚ, o.height = some h → 0 ≤ h)))
    ∧ ((∃ msg, validateImageProcessingOptions o = .error msg) ↔
      ¬ (o.mode ∈ validModes
        ∧ (∀ q : ℚ, o.quality = some q → q = 0 ∨ (1 ≤ q ∧ q ≤ 100))
        ∧ (∀ w : ℚ, o.width = some w → 0 ≤ w)
        ∧ (∀ h : ℚ, o.height = some h → 0 ≤ h))) := by
  obtain ⟨mode, w, h, bg, qual, par, pos⟩ := o
  have hmain : validateImageProcessingOptions ⟨mode, w, h, bg, qual, par, pos⟩ = .ok () ↔
      (mode ∈ validModes
        ∧ (∀ q : ℚ, qual = some q → q = 0 ∨ (1 ≤ q ∧ q ≤ 100))
        ∧ (∀ wv : ℚ, w = some wv → 0 ≤ wv)
        ∧ (∀ hv : ℚ, h = some hv → 0 ≤ hv)) := by
    unfold validateImageProcessingOptions
    by_cases hm : mode ∈ validModes
    · rw [if_neg (not_not_intro hm)]
      by_cases hq : numTruthyAnd qual (fun q => q < 1 ∨ 100 < q)
      · rw [if_pos hq]
        refine iff_of_false (fun hco => Except.noConfusion hco) (fun hC => ?_)
        rcases qual with _ | q
        · exact hq
        · have hq2 : q ≠ 0 ∧ (q < 1 ∨ 100 < q) := hq
          obtain ⟨hq0, hqr⟩ := hq2
          rcases hC.2.1 q rfl with hz | ⟨hlo, hhi⟩
          · exact hq0 hz
          · rcases hqr with hlt | hgt
            · exact absurd hlo (not_le.mpr hlt)
            · exact absurd hhi (not_le.mpr hgt)
      · rw [if_neg hq]
        by_cases hw : numTruthyAnd w (fun q => q ≤ 0)
        · rw [if_pos hw]
          refine iff_of_false (fun hco => Except.noConfusion hco) (fun hC => ?_)
          rcases w with _ | wv
          · exact hw
          · have hw2 : wv ≠ 0 ∧ wv ≤ 0 := hw
            exact hw2.1 (le_antisymm hw2.2 (hC.2.2.1 wv rfl))
        · rw [if_neg hw]
          by_cases hh : numTruthyAnd h (fun q => q ≤ 0)
          · rw [if_pos hh]
            refine iff_of_false (fun hco => Except.noConfusion hco) (fun hC => ?_)
            rcases h with _ | hv
            · exact hh
            · have hh2 : hv ≠ 0 ∧ hv ≤ 0 := hh
              exact hh2.1 (le_antisymm hh2.2 (hC.2.2.2 hv rfl))
          · rw [if_neg hh]
            refine iff_of_true rfl ⟨hm, ?_, ?_, ?_⟩
            · rintro q rfl
              by_cases hq0 : q = 0
              · exact Or.inl hq0
              · refine Or.inr ?_
                have hqr : ¬ ((q : ℚ) < 1 ∨ 100 < q) := fun hb => hq ⟨hq0, hb⟩
                push_neg at hqr
                exact hqr
            · rintro wv rfl
              by_cases hw0 : wv = 0
              · exact hw0 ▸ le_refl (0 : ℚ)
              · have hwr : ¬ ((wv : ℚ) ≤ 0) := fun hb => hw ⟨hw0, hb⟩
                exact le_of_lt (not_le.mp hwr)
            · rintro hv rfl
              by_cases hh0 : hv = 0
              · exact hh0 ▸ le_refl (0 : ℚ)
              · have hhr : ¬ ((hv : ℚ) ≤ 0) := fun hb => hh ⟨hh0, hb⟩
                exact le_of_lt (not_le.mp hhr)
    · rw [if_pos hm]
      exact iff_of_false (fun hco => Except.noConfusion hco) (fun hC => hm hC.1)
  refine ⟨hmain, ?_⟩
  constructor
  · rintro ⟨msg, hmsg⟩ hC
    rw [hmain.mpr hC] at hmsg
    exact Except.noConfusion hmsg
  · intro hnC
    rcases hval : validateImageProcessingOptions ⟨mode, w, h, bg, qual, par, pos⟩ with msg | u
    · exact ⟨msg, rfl⟩
    · cases u
      exact absurd (hmain.mp hval) hnC

/-! ## TILE-mode composition plan
(src/utils/image-processing.ts 135–175)

The TILE branch of `processImageBuffer` is effectful (it drives the `sharp`
library), but all its decisions are pure arithmetic on the original and
target dimensions.  `tileCompositePlan` records exactly those decisions:
the canvas creation size, the tile resize size, the tile counts, and the
list of composite offsets `(left, top)` pushed by the nested
`for (y) for (x)` loops, in push order. -/

/-- `Math.ceil(a / b)` for natural `a`, positive natural `b`. -/
def ceilDivNat (a b : ℕ) : ℕ := (a + b - 1) / b

/-- The pure content of the TILE branch. -/
structure TilePlan where
  canvasWidth : ℕ
  canvasHeight : ℕ
  tileWidth : ℕ
  tileHeight : ℕ
  tilesX : ℕ
  tilesY : ℕ
  offsets : List (ℕ × ℕ)

/-- The TILE-mode arithmetic of `processImageBuffer` (lines 135–175):
per-axis tile size `min(original, target)`, tile counts
`ceil(target / tileSize)`, canvas of the exact target size, and one
composite entry at `(x * tileWidth, y * tileHeight)` for each
`y in [0,tilesY)`, `x in [0,tilesX)` (outer loop over `y`). -/
def tileCompositePlan (originalWidth originalHeight targetWidth targetHeight : ℕ) : TilePlan :=
  let tileWidth := min originalWidth targetWidth
  let tileHeight := min originalHeight targetHeight
  let tilesX := ceilDivNat targetWidth tileWidth
  let tilesY := ceilDivNat targetHeight tileHeight
  { canvasWidth := targetWidth
    canvasHeight := targetHeight
    tileWidth := tileWidth
    tileHeight := tileHeight
    tilesX := tilesX
    tilesY := tilesY
    offsets := (List.range tilesY).flatMap
      (fun y => (List.range tilesX).map (fun x => (x * tileWidth, y * tileHeight))) }

theorem ceilDivNat_mul_ge (a b : ℕ) (hb : 0 < b) : a ≤ ceilDivNat a b * b := by
  unfold ceilDivNat
  rw [Nat.mul_comm]
  have hdm := Nat.div_add_mod (a + b - 1) b
  have hlt : (a + b - 1) % b < b := Nat.mod_lt _ hb
  generalize b * ((a + b - 1) / b) = t at hdm
  generalize (a + b - 1) % b = r at hdm hlt
  omega

theorem mul_lt_of_lt_ceilDivNat (a b i : ℕ) (hb : 0 < b) (_ha : 0 < a)
    (hi : i < ceilDivNat a b) : i * b < a := by
  unfold ceilDivNat at hi
  have h1 : i + 1 ≤ (a + b - 1) / b := hi
  have h2 : (i + 1) * b ≤ (a + b - 1) / b * b := Nat.mul_le_mul_right b h1
  have h3 : (a + b - 1) / b * b ≤ a + b - 1 := Nat.div_mul_le_self _ _
  rw [Nat.add_mul, Nat.one_mul] at h2
  generalize (a + b - 1) / b * b = t at h2 h3
  generalize i * b = s at h2 ⊢
  omega

/-- C7.  In TILE mode with positive original and target dimensions, the
plan uses per-axis tile size `min(original, target)`, tile counts
`ceil(target / tileSize)`, a canvas of exactly the target size, and one
composite at every `(i * tileWidth, j * tileHeight)` with `i < tilesX`,
`j < tilesY`; every tile's origin lies inside the canvas, the tile grid
covers the full target extent (edge tiles overflow rather than being
omitted), and the 50×50-into-120×80 example produces a 120×80 canvas with
tiles at (0,0),(50,0),(100,0),(0,50),(50,50),(100,50). -/
theorem tileCompositePlan_spec (ow oh tw th : ℕ)
    (how : 0 < ow) (hoh : 0 < oh) (htw : 0 < tw) (hth : 0 < th) :
    (tileCompositePlan ow oh tw th).canvasWidth = tw
    ∧ (tileCompositePlan ow oh tw th).canvasHeight = th
    ∧ (tileCompositePlan ow oh tw th).tileWidth = min ow tw
    ∧ (tileCompositePlan ow oh tw th).tileHeight = min oh th
    ∧ (tileCompositePlan ow oh tw th).tilesX = ceilDivNat tw (min ow tw)
    ∧ (tileCompositePlan ow oh tw th).tilesY = ceilDivNat th (min oh th)
    ∧ (∀ p : ℕ × ℕ, p ∈ (tileCompositePlan ow oh tw th).offsets ↔
        ∃ j, j < (tileCompositePlan ow oh tw th).tilesY ∧
          ∃ i, i < (tileCompositePlan ow oh tw th).tilesX ∧
            p = (i * (tileCompositePlan ow oh tw th).tileWidth,
                 j * (tileCompositePlan ow oh tw th).tileHeight))
    ∧ tw ≤ (tileCompositePlan ow oh tw th).tilesX * (tileCompositePlan ow oh tw th).tileWidth
    ∧ th ≤ (tileCompositePlan ow oh tw th).tilesY * (tileCompositePlan ow oh tw th).tileHeight
    ∧ (∀ p : ℕ × ℕ, p ∈ (tileCompositePlan ow oh tw th).offsets → p.1 < tw ∧ p.2 < th)
    ∧ tileCompositePlan 50 50 120 80 =
        ⟨120, 80, 50, 50, 3, 2, [(0, 0), (50, 0), (100, 0), (0, 50), (50, 50), (100, 50)]⟩ := by
  have hbw : 0 < min ow tw := lt_min how htw
  have hbh : 0 < min oh th := lt_min hoh hth
  refine ⟨rfl, rfl, rfl, rfl, rfl, rfl, ?_, ?_, ?_, ?_, ?_⟩
  · intro p
    simp only [tileCompositePlan, List.mem_flatMap, List.mem_map, List.mem_range]
    constructor
    · rintro ⟨j, hj, x, hx, rfl⟩
      exact ⟨j, hj, x, hx, rfl⟩
    · rintro ⟨j, hj, i, hi, rfl⟩
      exact ⟨j, hj, i, hi, rfl⟩
  · exact ceilDivNat_mul_ge tw (min ow tw) hbw
  · exact ceilDivNat_mul_ge th (min oh th) hbh
  · intro p hp
    simp only [tileCompositePlan, List.mem_flatMap, List.mem_map, List.mem_range] at hp
    obtain ⟨j, hj, x, hx, rfl⟩ := hp
    exact ⟨mul_lt_of_lt_ceilDivNat tw (min ow tw) x hbw htw hx,
      mul_lt_of_lt_ceilDivNat th (min oh th) j hbh hth hj⟩
  · rfl

/-- C7 witness: the theorem applied at the concrete 50×50 source and
120×80 target. -/
theorem tileCompositePlan_spec_witness :
    (0 < 50 ∧ 0 < 120 ∧ 0 < 80)
    ∧ tileCompositePlan 50 50 120 80 =
        ⟨120, 80, 50, 50, 3, 2, [(0, 0), (50, 0), (100, 0), (0, 50), (50, 50), (100, 50)]⟩ :=
  ⟨by omega, (tileCompositePlan_spec 50 50 120 80 (by omega) (by omega) (by omega)
    (by omega)).2.2.2.2.2.2.2.2.2.2⟩

/-! ## CSS box shorthand (src/utils/common.ts 278–313) -/

/-- A 4-sided box of JS numbers (`{top, right, bottom, left}`). -/
structure BoxSides where
  top : ℚ
  right : ℚ
  bottom : ℚ
  left : ℚ

/-- `generateCSSShorthand(values, {ignoreZero = true, suffix = "px"})`
(src/utils/common.ts 278–313).  Returns `none` for the `undefined` result. -/
def generateCSSShorthand (values : BoxSides) (ignoreZero : Bool) (suffix : String) :
    Option String :=
  if ignoreZero = true ∧ values.top = 0 ∧ values.right = 0 ∧ values.bottom = 0 ∧ values.left = 0 then
    none
  else if values.top = values.right ∧ values.right = values.bottom ∧ values.bottom = values.left then
    some (jsNumToString values.top ++ suffix)
  else if values.right = values.left then
    if values.top = values.bottom then
      some (jsNumToString values.top ++ suffix ++ " " ++ jsNumToString values.right ++ suffix)
    else
      some (jsNumToString values.top ++ suffix ++ " " ++ jsNumToString values.right ++ suffix
        ++ " " ++ jsNumToString values.bottom ++ suffix)
  else
    some (jsNumToString values.top ++ suffix ++ " " ++ jsNumToString values.right ++ suffix
      ++ " " ++ jsNumToString values.bottom ++ suffix ++ " " ++ jsNumToString values.left ++ suffix)

/-- The token list (side values, in emission order) underlying each branch
of `generateCSSShorthand`; same branch conditions as the source. -/
def shorthandTokens (values : BoxSides) : List ℚ :=
  if values.top = values.right ∧ values.right = values.bottom ∧ values.bottom = values.left then
    [values.top]
  else if values.right = values.left then
    if values.top = values.bottom then [values.top, values.right]
    else [values.top, values.right, values.bottom]
  else
    [values.top, values.right, values.bottom, values.left]

/-- Render a token list the way the source's template literals do:
stringified value, suffix, single-space separators. -/
def renderTokens (suffix : String) : List ℚ → String
  | [] => ""
  | [q] => jsNumToString q ++ suffix
  | q :: rest => jsNumToString q ++ suffix ++ " " ++ renderTokens suffix rest

/-- CSS margin/padding-style expansion of a 1-, 2-, 3- or 4-token
shorthand back into a 4-sided box (spec-side definition, from the claim's
words "shortest equivalent CSS shorthand"). -/
def expandShorthand : List ℚ → Option BoxSides
  | [a] => some ⟨a, a, a, a⟩
  | [t, h] => some ⟨t, h, t, h⟩
  | [t, h, b] => some ⟨t, h, b, h⟩
  | [t, r, b, l] => some ⟨t, r, b, l⟩
  | [] => none
  | _ :: _ :: _ :: _ :: _ :: _ => none

theorem expandShorthand_cases (ts : List ℚ) (v : BoxSides)
    (h : expandShorthand ts = some v) :
    (ts.length = 1 ∧ v.top = v.right ∧ v.right = v.bottom ∧ v.bottom = v.left)
    ∨ (ts.length = 2 ∧ v.top = v.bottom ∧ v.right = v.left)
    ∨ (ts.length = 3 ∧ v.right = v.left)
    ∨ ts.length = 4 := by
  rcases ts with _ | ⟨a, _ | ⟨b2, _ | ⟨c, _ | ⟨d, _ | ⟨e, rest⟩⟩⟩⟩⟩
  · exact Option.noConfusion h
  · injection h with h
    subst h
    exact Or.inl ⟨rfl, rfl, rfl, rfl⟩
  · injection h with h
    subst h
    exact Or.inr (Or.inl ⟨rfl, rfl, rfl⟩)
  · injection h with h
    subst h
    exact Or.inr (Or.inr (Or.inl ⟨rfl, rfl⟩))
  · exact Or.inr (Or.inr (Or.inr rfl))
  · exact Option.noConfusion h

/-- C8.  With default options, `generateCSSShorthand` emits exactly the
token list of `shorthandTokens` (1, 2, 3 or 4 tokens by the stated side
equalities), except that the all-zero box with `ignoreZero` yields no
value; the emitted token list expands back to the input box under CSS
shorthand semantics and no strictly shorter token list does, so the output
is the shortest equivalent shorthand; and the four concrete examples
evaluate as the claim states. -/
theorem generateCSSShorthand_spec (v : BoxSides) (ignoreZero : Bool) (suffix : String) :
    (generateCSSShorthand v ignoreZero suffix =
      if ignoreZero = true ∧ v.top = 0 ∧ v.right = 0 ∧ v.bottom = 0 ∧ v.left = 0 then none
      else some (renderTokens suffix (shorthandTokens v)))
    ∧ expandShorthand (shorthandTokens v) = some v
    ∧ (∀ ts : List ℚ, expandShorthand ts = some v →
        (shorthandTokens v).length ≤ ts.length)
    ∧ generateCSSShorthand ⟨10, 10, 10, 10⟩ true "px" = some "10px"
    ∧ generateCSSShorthand ⟨10, 20, 10, 20⟩ true "px" = some "10px 20px"
    ∧ generateCSSShorthand ⟨10, 20, 30, 40⟩ true "px" = some "10px 20px 30px 40px"
    ∧ generateCSSShorthand ⟨0, 0, 0, 0⟩ true "px" = none := by
  obtain ⟨t, r, b, l⟩ := v
  refine ⟨?_, ?_, ?_, by decide, by decide, by decide, by decide⟩
  · by_cases hz : ignoreZero = true ∧ t = 0 ∧ r = 0 ∧ b = 0 ∧ l = 0
    · rw [generateCSSShorthand, if_pos hz, if_pos hz]
    · rw [generateCSSShorthand, if_neg hz, if_neg hz]
      by_cases h1 : t = r ∧ r = b ∧ b = l
      · rw [if_pos h1, shorthandTokens, if_pos h1]
        rfl
      · rw [if_neg h1, shorthandTokens, if_neg h1]
        by_cases h2 : r = l
        · rw [if_pos h2, if_pos h2]
          by_cases h3 : t = b
          · rw [if_pos h3, if_pos h3]
            simp [renderTokens, String.append_assoc]
          · rw [if_neg h3, if_neg h3]
            simp [renderTokens, String.append_assoc]
        · rw [if_neg h2, if_neg h2]
          simp [renderTokens, String.append_assoc]
  · rw [shorthandTokens]
    by_cases h1 : t = r ∧ r = b ∧ b = l
    · obtain ⟨ha, hb, hc⟩ := h1
      rw [if_pos ⟨ha, hb, hc⟩]
      subst ha hb hc
      rfl
    · rw [if_neg h1]
      by_cases h2 : r = l
      · rw [if_pos h2]
        by_cases h3 : t = b
        · rw [if_pos h3]
          subst h2 h3
          rfl
        · rw [if_neg h3]
          subst h2
          rfl
      · rw [if_neg h2]
        rfl
  · intro ts hts
    have hcases := expandShorthand_cases ts ⟨t, r, b, l⟩ hts
    rw [shorthandTokens]
    by_cases h1 : t = r ∧ r = b ∧ b = l
    · rw [if_pos h1]
      simp only [List.length_cons, List.length_nil]
      omega
    · rw [if_neg h1]
      by_cases h2 : r = l
      · rw [if_pos h2]
        by_cases h3 : t = b
        · rw [if_pos h3]
          simp only [List.length_cons, List.length_nil]
          rcases hcases with ⟨hl, he⟩ | ⟨hl, _⟩ | ⟨hl, _⟩ | hl
          · exact absurd he h1
          · omega
          · omega
          · omega
        · rw [if_neg h3]
          simp only [List.length_cons, List.length_nil]
          rcases hcases with ⟨hl, ha, hb, hc⟩ | ⟨hl, htb, _⟩ | ⟨hl, _⟩ | hl
          · exact absurd (ha.trans hb) h3
          · exact absurd htb h3
          · omega
          · omega
      · rw [if_neg h2]
        simp only [List.length_cons, List.length_nil]
        rcases hcases with ⟨hl, ha, hb, hc⟩ | ⟨hl, _, hrl⟩ | ⟨hl, hrl⟩ | hl
        · exact absurd (hb.trans hc) h2
        · exact absurd hrl h2
        · exact absurd hrl h2
        · omega

/-- C8 witness: the theorem applied at the `{10,20,30,40}` box with the
default options. -/
theorem generateCSSShorthand_spec_witness :
    (generateCSSShorthand ⟨10, 20, 30, 40⟩ true "px" =
      if (true : Bool) = true ∧ (10 : ℚ) = 0 ∧ (20 : ℚ) = 0 ∧ (30 : ℚ) = 0 ∧ (40 : ℚ) = 0
      then none
      else some (renderTokens "px" (shorthandTokens ⟨10, 20, 30, 40⟩)))
    ∧ expandShorthand (shorthandTokens ⟨10, 20, 30, 40⟩) = some ⟨10, 20, 30, 40⟩
    ∧ (∀ ts : List ℚ, expandShorthand ts = some ⟨10, 20, 30, 40⟩ →
        (shorthandTokens ⟨10, 20, 30, 40⟩).length ≤ ts.length)
    ∧ generateCSSShorthand ⟨10, 10, 10, 10⟩ true "px" = some "10px"
    ∧ generateCSSShorthand ⟨10, 20, 10, 20⟩ true "px" = some "10px 20px"
    ∧ generateCSSShorthand ⟨10, 20, 30, 40⟩ true "px" = some "10px 20px 30px 40px"
    ∧ generateCSSShorthand ⟨0, 0, 0, 0⟩ true "px" = none :=
  generateCSSShorthand_spec ⟨10, 20, 30, 40⟩ true "px"

/-! ## Color conversion (src/utils/common.ts 215–244) and `parsePaint`
(src/utils/common.ts 321–406) -/

/-- ASCII uppercase of a string; models `String.prototype.toUpperCase()` on
the ASCII strings (hex digits, scale-mode names) it is applied to. -/
def stringToUpper (s : String) : String := String.mk (s.data.map Char.toUpper)

/-- Figma RGBA color: channel triplet and alpha, each nominally in [0,1]. -/
structure RGBA where
  r : ℚ
  g : ℚ
  b : ℚ
  a : ℚ
deriving DecidableEq

/-- `{ hex, opacity }` as returned by `convertColor`. -/
structure ColorValue where
  hex : String
  opacity : ℚ
deriving DecidableEq

/-- `convertColor(color, opacity = 1)` (src/utils/common.ts 215–227):
channels to 0–255 via `Math.round(channel * 255)`, combined alpha
`Math.round(opacity * color.a * 100) / 100`, hex via
`((1 << 24) + (r << 16) + (g << 8) + b).toString(16).slice(1).toUpperCase()`
(the `<<` shifts are 32-bit, modelled with `toInt32`; the additions are
exact float additions). -/
def convertColor (color : RGBA) (opacity : ℚ) : ColorValue :=
  let r := jsRoundQ (color.r * 255)
  let g := jsRoundQ (color.g * 255)
  let b := jsRoundQ (color.b * 255)
  let a : ℚ := (jsRoundQ (opacity * color.a * 100) : ℚ) / 100
  let sum : ℤ := toInt32 (1 * 2 ^ 24) + toInt32 (r * 2 ^ 16) + toInt32 (g * 2 ^ 8) + b
  let hexDigits := if sum < 0 then "-" ++ natToHexString sum.natAbs else natToHexString sum.toNat
  ⟨"#" ++ stringToUpper (hexDigits.drop 1), a⟩

/-- `formatRGBAColor(color, opacity = 1)` (src/utils/common.ts 236–244):
`rgba(r, g, b, a)` with the same channel rounding and the same combined
alpha `Math.round(opacity * color.a * 100) / 100`. -/
def formatRGBAColor (color : RGBA) (opacity : ℚ) : String :=
  let r := jsRoundQ (color.r * 255)
  let g := jsRoundQ (color.g * 255)
  let b := jsRoundQ (color.b * 255)
  let a : ℚ := (jsRoundQ (opacity * color.a * 100) : ℚ) / 100
  "rgba(" ++ toString r ++ ", " ++ toString g ++ ", " ++ toString b ++ ", "
    ++ jsNumToString a ++ ")"

/-! ## Gradient geometry and CSS conversion (src/utils/common.ts 430–635) -/

/-- A gradient handle position (`Vector`), unit-square coordinates. -/
structure Vec where
  x : ℚ
  y : ℚ
deriving DecidableEq

/-- A gradient stop: position in [0,1] plus RGBA color. -/
structure GradientStop where
  position : ℚ
  color : RGBA
deriving DecidableEq

/-- `clamp(value, min, max)` (src/utils/common.ts 470–472):
`Math.max(min, Math.min(max, value))`. -/
def clamp (value lo hi : ℚ) : ℚ :=
  max lo (min hi value)

/-- `Math.atan2(y, x)`, modelled exactly (ECMAScript follows the C
convention; `atan2(0, 0) = 0`). -/
noncomputable def atan2 (y x : ℝ) : ℝ :=
  if 0 < x then Real.arctan (y / x)
  else if x < 0 then
    (if 0 ≤ y then Real.arctan (y / x) + Real.pi else Real.arctan (y / x) - Real.pi)
  else
    (if 0 < y then Real.pi / 2 else if y < 0 then -(Real.pi / 2) else 0)

/-- `calculateDistance(p1, p2)` (src/utils/common.ts 444–446):
`Math.sqrt(Math.pow(p2.x - p1.x, 2) + Math.pow(p2.y - p1.y, 2))`. -/
noncomputable def calculateDistance (p1 p2 : Vec) : ℝ :=
  Real.sqrt (((p2.x - p1.x : ℚ) : ℝ) ^ 2 + ((p2.y - p1.y : ℚ) : ℝ) ^ 2)

/-- `calculateAngle(p1, p2)` (src/utils/common.ts 454–461): convert the
mathematical `atan2` angle (degrees) to the CSS clockwise-from-top
convention via `(90 - degrees + 360) % 360`. -/
noncomputable def calculateAngle (p1 p2 : Vec) : ℝ :=
  let radians := atan2 (((p2.y - p1.y : ℚ) : ℝ)) (((p2.x - p1.x : ℚ) : ℝ))
  let degrees := radians * (180 / Real.pi)
  jsModR (90 - degrees + 360) 360

/-- `convertGradientHandlePositions(handles)` (src/utils/common.ts
480–489): fewer than two handles are replaced by the default pair
`(0,0),(1,1)`; otherwise each handle is clamped into the unit square. -/
def convertGradientHandlePositions (handles : List Vec) : List Vec :=
  if handles.length < 2 then [⟨0, 0⟩, ⟨1, 1⟩]
  else handles.map (fun handle => ⟨clamp handle.x 0 1, clamp handle.y 0 1⟩)

/-- `generateGradientStops(stops)` (src/utils/common.ts 496–508): each stop
rendered as `formatRGBAColor(color)` (default opacity 1) followed by the
rounded percent position, joined with `", "`; empty list falls back to the
fixed black→white pair. -/
def generateGradientStops (stops : List GradientStop) : String :=
  if stops.length = 0 then "rgba(0,0,0,1) 0%, rgba(255,255,255,1) 100%"
  else
    String.intercalate ", " (stops.map (fun stop =>
      formatRGBAColor stop.color 1 ++ " "
        ++ toString (jsRoundQ (stop.position * 100)) ++ "%"))

/-- `convertLinearGradient` (src/utils/common.ts 516–526).  The converted
handle list always has at least two entries, so the `getD` defaults are
never used (they model the TS index accesses `convertedHandles[0]`,
`convertedHandles[1]`). -/
noncomputable def convertLinearGradient (handlePositions : List Vec)
    (gradientStops : List GradientStop) : String :=
  let convertedHandles := convertGradientHandlePositions handlePositions
  let startHandle := convertedHandles.getD 0 ⟨0, 0⟩
  let endHandle := convertedHandles.getD 1 ⟨0, 0⟩
  let angle := calculateAngle startHandle endHandle
  let stops := generateGradientStops gradientStops
  "linear-gradient(" ++ toString (jsRoundR angle) ++ "deg, " ++ stops ++ ")"

/-- `convertRadialGradient` (src/utils/common.ts 534–550). -/
noncomputable def convertRadialGradient (handlePositions : List Vec)
    (gradientStops : List GradientStop) : String :=
  let convertedHandles := convertGradientHandlePositions handlePositions
  let centerHandle := convertedHandles.getD 0 ⟨0, 0⟩
  let edgeHandle := convertedHandles.getD 1 ⟨0, 0⟩
  let radiusPercent := jsRoundR (calculateDistance centerHandle edgeHandle * 100)
  let centerX := jsRoundQ (centerHandle.x * 100)
  let centerY := jsRoundQ (centerHandle.y * 100)
  let stops := generateGradientStops gradientStops
  "radial-gradient(circle " ++ toString radiusPercent ++ "% at " ++ toString centerX
    ++ "% " ++ toString centerY ++ "%, " ++ stops ++ ")"

/-- `convertAngularGradient` (src/utils/common.ts 558–573). -/
noncomputable def convertAngularGradient (handlePositions : List Vec)
    (gradientStops : List GradientStop) : String :=
  let convertedHandles := convertGradientHandlePositions handlePositions
  let centerHandle := convertedHandles.getD 0 ⟨0, 0⟩
  let directionHandle := convertedHandles.getD 1 ⟨0, 0⟩
  let angle := calculateAngle centerHandle directionHandle
  let centerX := jsRoundQ (centerHandle.x * 100)
  let centerY := jsRoundQ (centerHandle.y * 100)
  let stops := generateGradientStops gradientStops
  "conic-gradient(from " ++ toString (jsRoundR angle) ++ "deg at " ++ toString centerX
    ++ "% " ++ toString centerY ++ "%, " ++ stops ++ ")"

/-- `convertDiamondGradient` (src/utils/common.ts 581–599). -/
noncomputable def convertDiamondGradient (handlePositions : List Vec)
    (gradientStops : List GradientStop) : String :=
  let convertedHandles := convertGradientHandlePositions handlePositions
  let centerHandle := convertedHandles.getD 0 ⟨0, 0⟩
  let edgeHandle := convertedHandles.getD 1 ⟨0, 0⟩
  let radiusX := jsRoundQ (|edgeHandle.x - centerHandle.x| * 100)
  let radiusY := jsRoundQ (|edgeHandle.y - centerHandle.y| * 100)
  let centerX := jsRoundQ (centerHandle.x * 100)
  let centerY := jsRoundQ (centerHandle.y * 100)
  let stops := generateGradientStops gradientStops
  "radial-gradient(ellipse " ++ toString radiusX ++ "% " ++ toString radiusY ++ "% at "
    ++ toString centerX ++ "% " ++ toString centerY ++ "%, " ++ stops ++ ")"

/-- The four gradient paint kinds accepted by `convertGradientToCSS`. -/
inductive GradientPaintType where
  | GRADIENT_LINEAR
  | GRADIENT_RADIAL
  | GRADIENT_ANGULAR
  | GRADIENT_DIAMOND
deriving DecidableEq

/-- `convertGradientToCSS(type, handlePositions, gradientStops)`
(src/utils/common.ts 608–635).  The TS `switch` has an unreachable
`default` (the type union is closed) and a `try/catch` whose body contains
no throwing operation, so the catch fallback is dead code; the model is the
total dispatch. -/
noncomputable def convertGradientToCSS (gtype : GradientPaintType)
    (handlePositions : List Vec) (gradientStops : List GradientStop) : String :=
  match gtype with
  | .GRADIENT_LINEAR => convertLinearGradient handlePositions gradientStops
  | .GRADIENT_RADIAL => convertRadialGradient handlePositions gradientStops
  | .GRADIENT_ANGULAR => convertAngularGradient handlePositions gradientStops
  | .GRADIENT_DIAMOND => convertDiamondGradient handlePositions gradientStops

/-! ## `parsePaint` (src/utils/common.ts 321–406) -/

/-- The fixed fallback emitted by `parsePaint` when gradient handle
positions or stops are missing (src/utils/common.ts 380). -/
def gradientFallback : String :=
  "linear-gradient(0deg, rgba(0,0,0,1) 0%, rgba(255,255,255,1) 100%)"

/-- A raw Figma paint, restricted to the fields `parsePaint` reads.  The
IMAGE branch's optional pass-through fields (imageTransform,
scalingFactor, rotation, filters, gifRef) and the PATTERN branch's tiling
fields are independent copies not involved in any claim and are omitted. -/
inductive Paint where
  | solid (color : RGBA) (opacity : Option ℚ)
  | gradient (gtype : GradientPaintType) (gradientHandlePositions : Option (List Vec))
      (gradientStops : Option (List GradientStop))
  | image (imageRef : Option String) (scaleMode : Option String)
  | pattern (sourceNodeId : String)

/-- The result of `parsePaint`: a CSS color/gradient string, or the
structured IMAGE / PATTERN fill. -/
inductive SimplifiedFill where
  | css (s : String)
  | imageFill (imageRef : Option String) (scaleMode : String)
  | patternFill (sourceNodeId : String)
deriving DecidableEq

/-- `parsePaint(raw)` (src/utils/common.ts 321–406).  SOLID destructures
`convertColor(raw.color, raw.opacity)` and — when the combined opacity is
not 1 — passes that combined opacity back into `formatRGBAColor`, which
multiplies by `color.a` again.  GRADIENT falls back to the fixed string
when handles or stops are absent (an empty array is truthy in JS and does
not trigger the fallback).  IMAGE upper-cases the scale mode and defaults
it to FIT (also when the upper-cased string is empty, via `|| "FIT"`). -/
noncomputable def parsePaint (raw : Paint) : SimplifiedFill :=
  match raw with
  | .image imageRef scaleMode =>
    let normalized :=
      match scaleMode.map stringToUpper with
      | some s => if s = "" then "FIT" else s
      | none => "FIT"
    .imageFill imageRef normalized
  | .solid color opacity =>
    let c := convertColor color (opacity.getD 1)
    if c.opacity = 1 then .css c.hex
    else .css (formatRGBAColor color c.opacity)
  | .gradient gtype handles stops =>
    match handles, stops with
    | some hp, some gs => .css (convertGradientToCSS gtype hp gs)
    | _, _ => .css gradientFallback
  | .pattern sourceNodeId => .patternFill sourceNodeId

/-- C1.  Evaluations of `parsePaint` on SOLID paints.  With full alpha the
output is the 6-hex-digit uppercase `#RRGGBB` string; at the failing input
(color `(0,0,0)` with `alpha = 0.5`, opacity parameter `1`) the combined
alpha `round(1 * 0.5 * 100)/100 = 0.5` is below 1 as the claim requires,
but the emitted `rgba` string carries alpha `0.25`, not `0.5`: `parsePaint`
feeds the combined alpha back into `formatRGBAColor`, which multiplies by
`color.a` a second time. -/
theorem parsePaint_solid_double_alpha :
    parsePaint (.solid ⟨1, 0, 0, 1⟩ none) = .css "#FF0000"
    ∧ (jsRoundQ (1 * (1/2 : ℚ) * 100) : ℚ) / 100 = 1/2
    ∧ ((1/2 : ℚ) ≠ 1)
    ∧ parsePaint (.solid ⟨0, 0, 0, 1/2⟩ (some 1)) = .css "rgba(0, 0, 0, 0.25)"
    ∧ ("rgba(0, 0, 0, 0.25)" : String) ≠ "rgba(0, 0, 0, 0.5)" := by
  refine ⟨by with_unfolding_all rfl, ?_, by norm_num, by with_unfolding_all rfl, by decide⟩
  norm_num [jsRoundQ]

/-! ## Concrete gradient-angle computations -/

theorem atan2_zero_one : atan2 0 1 = 0 := by
  norm_num [atan2, Real.arctan_zero]

theorem atan2_one_zero : atan2 1 0 = Real.pi / 2 := by
  norm_num [atan2]

theorem atan2_one_one : atan2 1 1 = Real.pi / 4 := by
  norm_num [atan2, Real.arctan_one]

theorem jsRoundR_intCast (n : ℤ) : jsRoundR (n : ℝ) = n := by
  unfold jsRoundR
  rw [Int.floor_eq_iff]
  constructor
  · linarith
  · linarith

theorem jsModR_eq (x y : ℝ) (n : ℤ) (h1 : (n : ℝ) ≤ x / y)
    (h2 : x / y < n + 1) : jsModR x y = x - y * n := by
  unfold jsModR
  rw [Int.floor_eq_iff.mpr ⟨h1, h2⟩]

theorem calculateAngle_right : calculateAngle ⟨0, 0⟩ ⟨1, 0⟩ = 90 := by
  unfold calculateAngle
  simp only [show ((((⟨1, 0⟩ : Vec).y - (⟨0, 0⟩ : Vec).y : ℚ)) : ℝ) = 0 from by norm_num,
    show ((((⟨1, 0⟩ : Vec).x - (⟨0, 0⟩ : Vec).x : ℚ)) : ℝ) = 1 from by norm_num,
    atan2_zero_one]
  rw [show (90 : ℝ) - 0 * (180 / Real.pi) + 360 = 450 from by ring]
  rw [jsModR_eq 450 360 1 (by norm_num) (by norm_num)]
  norm_num

theorem calculateAngle_down : calculateAngle ⟨0, 0⟩ ⟨0, 1⟩ = 0 := by
  unfold calculateAngle
  simp only [show ((((⟨0, 1⟩ : Vec).y - (⟨0, 0⟩ : Vec).y : ℚ)) : ℝ) = 1 from by norm_num,
    show ((((⟨0, 1⟩ : Vec).x - (⟨0, 0⟩ : Vec).x : ℚ)) : ℝ) = 0 from by norm_num,
    atan2_one_zero]
  rw [show (90 : ℝ) - Real.pi / 2 * (180 / Real.pi) + 360 = 360 from by
    have hpi := Real.pi_ne_zero
    field_simp
    ring]
  rw [jsModR_eq 360 360 1 (by norm_num) (by norm_num)]
  norm_num

theorem calculateAngle_diag : calculateAngle ⟨0, 0⟩ ⟨1, 1⟩ = 45 := by
  unfold calculateAngle
  simp only [show ((((⟨1, 1⟩ : Vec).y - (⟨0, 0⟩ : Vec).y : ℚ)) : ℝ) = 1 from by norm_num,
    show ((((⟨1, 1⟩ : Vec).x - (⟨0, 0⟩ : Vec).x : ℚ)) : ℝ) = 1 from by norm_num,
    atan2_one_one]
  rw [show (90 : ℝ) - Real.pi / 4 * (180 / Real.pi) + 360 = 405 from by
    have hpi := Real.pi_ne_zero
    field_simp
    ring]
  rw [jsModR_eq 405 360 1 (by norm_num) (by norm_num)]
  norm_num

theorem jsRoundR_90 : jsRoundR 90 = 90 := by
  unfold jsRoundR
  exact Int.floor_eq_iff.mpr (by norm_num)

theorem jsRoundR_0 : jsRoundR 0 = 0 := by
  unfold jsRoundR
  exact Int.floor_eq_iff.mpr (by norm_num)

theorem jsRoundR_45 : jsRoundR 45 = 45 := by
  unfold jsRoundR
  exact Int.floor_eq_iff.mpr (by norm_num)

/-- Two appended strings differ whenever their leading parts have equal
length but differ. -/
theorem append_ne_append (a b x y : String) (hlen : a.length = b.length)
    (hne : a ≠ b) : a ++ x ≠ b ++ y := by
  intro hco
  apply hne
  have hdata : a.data ++ x.data = b.data ++ y.data := by
    have h2 := congrArg String.data hco
    rw [String.data_append, String.data_append] at h2
    exact h2
  have h3 := List.append_inj_left hdata hlen
  exact congrArg String.mk h3

theorem convertLinearGradient_right_eq (stops : List GradientStop) :
    convertLinearGradient [⟨0, 0⟩, ⟨1, 0⟩] stops
      = "linear-gradient(90deg, " ++ generateGradientStops stops ++ ")" := by
  simp only [convertLinearGradient,
    show convertGradientHandlePositions [⟨0, 0⟩, ⟨1, 0⟩] = [⟨0, 0⟩, ⟨1, 0⟩] from by
      with_unfolding_all rfl,
    List.getD_cons_zero, List.getD_cons_succ,
    calculateAngle_right, jsRoundR_90]
  rw [show ("linear-gradient(" ++ toString (90 : ℤ) ++ "deg, ") = "linear-gradient(90deg, "
    from by decide]

theorem convertLinearGradient_down_eq (stops : List GradientStop) :
    convertLinearGradient [⟨0, 0⟩, ⟨0, 1⟩] stops
      = "linear-gradient(0deg, " ++ generateGradientStops stops ++ ")" := by
  simp only [convertLinearGradient,
    show convertGradientHandlePositions [⟨0, 0⟩, ⟨0, 1⟩] = [⟨0, 0⟩, ⟨0, 1⟩] from by
      with_unfolding_all rfl,
    List.getD_cons_zero, List.getD_cons_succ,
    calculateAngle_down, jsRoundR_0]
  rw [show ("linear-gradient(" ++ toString (0 : ℤ) ++ "deg, ") = "linear-gradient(0deg, "
    from by decide]

theorem convertLinearGradient_diag_eq (stops : List GradientStop) :
    convertLinearGradient [⟨0, 0⟩, ⟨1, 1⟩] stops
      = "linear-gradient(45deg, " ++ generateGradientStops stops ++ ")" := by
  simp only [convertLinearGradient,
    show convertGradientHandlePositions [⟨0, 0⟩, ⟨1, 1⟩] = [⟨0, 0⟩, ⟨1, 1⟩] from by
      with_unfolding_all rfl,
    List.getD_cons_zero, List.getD_cons_succ,
    calculateAngle_diag, jsRoundR_45]
  rw [show ("linear-gradient(" ++ toString (45 : ℤ) ++ "deg, ") = "linear-gradient(45deg, "
    from by decide]

theorem convertLinearGradient_shape (hps : List Vec) (stops : List GradientStop) :
    ∃ rest, convertLinearGradient hps stops = "linear-gradient(" ++ rest := by
  simp only [convertLinearGradient, String.append_assoc]
  exact ⟨_, rfl⟩

theorem convertRadialGradient_shape (hps : List Vec) (stops : List GradientStop) :
    ∃ rest, convertRadialGradient hps stops = "radial-gradient(" ++ rest := by
  simp only [convertRadialGradient,
    show ("radial-gradient(circle " : String) = "radial-gradient(" ++ "circle " from by decide,
    String.append_assoc]
  exact ⟨_, rfl⟩

theorem convertAngularGradient_shape (hps : List Vec) (stops : List GradientStop) :
    ∃ rest, convertAngularGradient hps stops = "conic-gradient(" ++ rest := by
  simp only [convertAngularGradient,
    show ("conic-gradient(from " : String) = "conic-gradient(" ++ "from " from by decide,
    String.append_assoc]
  exact ⟨_, rfl⟩

theorem convertDiamondGradient_shape (hps : List Vec) (stops : List GradientStop) :
    ∃ rest, convertDiamondGradient hps stops = "radial-gradient(" ++ rest := by
  simp only [convertDiamondGradient,
    show ("radial-gradient(ellipse " : String) = "radial-gradient(" ++ "ellipse " from by decide,
    String.append_assoc]
  exact ⟨_, rfl⟩

theorem convertGradientToCSS_default_sub (gtype : GradientPaintType)
    (handles : List Vec) (stops : List GradientStop) (h : handles.length < 2) :
    convertGradientToCSS gtype handles stops
      = convertGradientToCSS gtype [⟨0, 0⟩, ⟨1, 1⟩] stops := by
  have hch : convertGradientHandlePositions handles
      = convertGradientHandlePositions [⟨0, 0⟩, ⟨1, 1⟩] := by
    rw [convertGradientHandlePositions, if_pos h]
    with_unfolding_all rfl
  cases gtype <;>
    simp only [convertGradientToCSS, convertLinearGradient, convertRadialGradient,
      convertAngularGradient, convertDiamondGradient, hch]

/-- C3 counterexample.  For handle positions (0,0) and (1,0) — with the
concrete black→white stop pair — the emitted linear gradient does not carry
angle `0deg` as the claim states (it carries `90deg`): the claim's own
formula `(90 − atan2-degrees + 360) mod 360` gives 90 there. -/
theorem convertLinearGradient_right_not_zero_deg :
    convertLinearGradient [⟨0, 0⟩, ⟨1, 0⟩] [⟨0, ⟨0, 0, 0, 1⟩⟩, ⟨1, ⟨1, 1, 1, 1⟩⟩]
      ≠ "linear-gradient(0deg, rgba(0, 0, 0, 1) 0%, rgba(255, 255, 255, 1) 100%)" := by
  rw [convertLinearGradient_right_eq]
  rw [show generateGradientStops [⟨0, ⟨0, 0, 0, 1⟩⟩, ⟨1, ⟨1, 1, 1, 1⟩⟩]
      = "rgba(0, 0, 0, 1) 0%, rgba(255, 255, 255, 1) 100%" from by with_unfolding_all rfl]
  decide

/-- C3 (amended).  For a linear gradient with handle positions (0,0) and
(1,0) the emitted CSS string carries angle `90deg`, and for handle
positions (0,0) and (0,1) it carries `0deg` (the two spec examples are
swapped): the angle is `(90 − atan2(dy,dx)_in_degrees + 360) mod 360`,
which maps (dx,dy) = (1,0) to 90 and (dx,dy) = (0,1) to 0. -/
theorem convertLinearGradient_axis_angles (stops : List GradientStop) :
    convertLinearGradient [⟨0, 0⟩, ⟨1, 0⟩] stops
      = "linear-gradient(90deg, " ++ generateGradientStops stops ++ ")"
    ∧ convertLinearGradient [⟨0, 0⟩, ⟨0, 1⟩] stops
      = "linear-gradient(0deg, " ++ generateGradientStops stops ++ ")" :=
  ⟨convertLinearGradient_right_eq stops, convertLinearGradient_down_eq stops⟩

/-- C9.  When `gradientHandlePositions` is present but holds fewer than two
entries, gradient conversion never throws: the converter substitutes the
default handle pair (0,0),(1,1) (the output equals the conversion at the
default pair), the result is a well-formed CSS gradient string
(`linear-gradient(`, `radial-gradient(` or `conic-gradient(` form), and it
is not the documented fixed fallback string. -/
theorem convertGradientToCSS_short_handles (gtype : GradientPaintType)
    (handles : List Vec) (stops : List GradientStop) (h : handles.length < 2) :
    convertGradientToCSS gtype handles stops
        = convertGradientToCSS gtype [⟨0, 0⟩, ⟨1, 1⟩] stops
    ∧ convertGradientToCSS gtype handles stops ≠ gradientFallback
    ∧ (∃ rest, convertGradientToCSS gtype handles stops = "linear-gradient(" ++ rest
        ∨ convertGradientToCSS gtype handles stops = "radial-gradient(" ++ rest
        ∨ convertGradientToCSS gtype handles stops = "conic-gradient(" ++ rest) := by
  refine ⟨convertGradientToCSS_default_sub gtype handles stops h, ?_, ?_⟩
  · rw [convertGradientToCSS_default_sub gtype handles stops h]
    cases gtype
    · rw [show convertGradientToCSS .GRADIENT_LINEAR [⟨0, 0⟩, ⟨1, 1⟩] stops
          = convertLinearGradient [⟨0, 0⟩, ⟨1, 1⟩] stops from rfl]
      rw [convertLinearGradient_diag_eq, String.append_assoc]
      rw [show gradientFallback
          = "linear-gradient(0deg, r" ++ "gba(0,0,0,1) 0%, rgba(255,255,255,1) 100%)" from by
        decide]
      exact append_ne_append _ _ _ _ (by decide) (by decide)
    · obtain ⟨rest, hr⟩ := convertRadialGradient_shape [⟨0, 0⟩, ⟨1, 1⟩] stops
      rw [show convertGradientToCSS .GRADIENT_RADIAL [⟨0, 0⟩, ⟨1, 1⟩] stops
          = convertRadialGradient [⟨0, 0⟩, ⟨1, 1⟩] stops from rfl]
      rw [hr]
      rw [show ("radial-gradient(" : String) = "radial-g" ++ "radient(" from by decide,
        String.append_assoc]
      rw [show gradientFallback
          = "linear-g" ++ "radient(0deg, rgba(0,0,0,1) 0%, rgba(255,255,255,1) 100%)" from by
        decide]
      exact append_ne_append _ _ _ _ (by decide) (by decide)
    · obtain ⟨rest, hr⟩ := convertAngularGradient_shape [⟨0, 0⟩, ⟨1, 1⟩] stops
      rw [show convertGradientToCSS .GRADIENT_ANGULAR [⟨0, 0⟩, ⟨1, 1⟩] stops
          = convertAngularGradient [⟨0, 0⟩, ⟨1, 1⟩] stops from rfl]
      rw [hr]
      rw [show ("conic-gradient(" : String) = "conic-" ++ "gradient(" from by decide,
        String.append_assoc]
      rw [show gradientFallback
          = "linear" ++ "-gradient(0deg, rgba(0,0,0,1) 0%, rgba(255,255,255,1) 100%)" from by
        decide]
      exact append_ne_append _ _ _ _ (by decide) (by decide)
    · obtain ⟨rest, hr⟩ := convertDiamondGradient_shape [⟨0, 0⟩, ⟨1, 1⟩] stops
      rw [show convertGradientToCSS .GRADIENT_DIAMOND [⟨0, 0⟩, ⟨1, 1⟩] stops
          = convertDiamondGradient [⟨0, 0⟩, ⟨1, 1⟩] stops from rfl]
      rw [hr]
      rw [show ("radial-gradient(" : String) = "radial-g" ++ "radient(" from by decide,
        String.append_assoc]
      rw [show gradientFallback
          = "linear-g" ++ "radient(0deg, rgba(0,0,0,1) 0%, rgba(255,255,255,1) 100%)" from by
        decide]
      exact append_ne_append _ _ _ _ (by decide) (by decide)
  · cases gtype
    · obtain ⟨rest, hr⟩ := convertLinearGradient_shape handles stops
      exact ⟨rest, Or.inl hr⟩
    · obtain ⟨rest, hr⟩ := convertRadialGradient_shape handles stops
      exact ⟨rest, Or.inr (Or.inl hr)⟩
    · obtain ⟨rest, hr⟩ := convertAngularGradient_shape handles stops
      exact ⟨rest, Or.inr (Or.inr hr)⟩
    · obtain ⟨rest, hr⟩ := convertDiamondGradient_shape handles stops
      exact ⟨rest, Or.inr (Or.inl hr)⟩

/-- C9 witness: the theorem applied to an empty (present but short) handle
array on a linear gradient with an empty stop list. -/
theorem convertGradientToCSS_short_handles_witness :
    ([] : List Vec).length < 2
    ∧ (convertGradientToCSS .GRADIENT_LINEAR [] []
          = convertGradientToCSS .GRADIENT_LINEAR [⟨0, 0⟩, ⟨1, 1⟩] []
      ∧ convertGradientToCSS .GRADIENT_LINEAR [] [] ≠ gradientFallback
      ∧ (∃ rest, convertGradientToCSS .GRADIENT_LINEAR [] [] = "linear-gradient(" ++ rest
          ∨ convertGradientToCSS .GRADIENT_LINEAR [] [] = "radial-gradient(" ++ rest
          ∨ convertGradientToCSS .GRADIENT_LINEAR [] [] = "conic-gradient(" ++ rest)) :=
  ⟨by decide, convertGradientToCSS_short_handles .GRADIENT_LINEAR [] [] (by decide)⟩

/-! ## Node tree simplification
(src/services/simplify-node-response.ts 130–306)

`RawNode` carries the raw-node fields `parseNode` reads that are modelled
here (identity, visibility, text, opacity, corner radius, component link,
fills, children).  The layout/stroke/effect collaborators are external to
the core per the specification («assumed to already exist as pure functions
of a node (and its parent)») and their sources are not part of this
repository; they are passed in as abstract pure functions.  Fields handled
independently of all claims (`textStyle`, `boundingBox`,
`componentProperties`, `rectangleCornerRadii`, `styles`) are omitted; each
is produced by its own independent assignment in the source. -/

inductive RawNode where
  | mk (id name type : String)
      (visible : Option Bool)
      (characters : Option String)
      (opacity : Option ℚ)
      (cornerRadius : Option ℚ)
      (componentId : Option String)
      (fills : List Paint)
      (children : List RawNode)

def RawNode.visible : RawNode → Option Bool
  | .mk _ _ _ v _ _ _ _ _ _ => v

def RawNode.children : RawNode → List RawNode
  | .mk _ _ _ _ _ _ _ _ _ c => c

/-- `isVisible(element)` (src/utils/common.ts 413–415):
`element.visible ?? true`. -/
def isVisible (element : RawNode) : Bool :=
  element.visible.getD true

/-- A simplified node (the modelled fields of `SimplifiedNode`).  An
`Option` field set to `none` models an absent key. -/
inductive SNode where
  | mk (id name type : String)
      (text : Option String)
      (opacity : Option ℚ)
      (borderRadius : Option String)
      (componentId : Option String)
      (fills : Option (List SimplifiedFill))
      (layout : Option String)
      (strokes : Option String)
      (effects : Option String)
      (children : Option (List SNode))

def SNode.children : SNode → Option (List SNode)
  | .mk _ _ _ _ _ _ _ _ _ _ _ c => c

/-- `{...node}` with the `children` key replaced (used to model both the
shallow clone plus `delete limitedNode.children` and the children
reassignment). -/
def SNode.withChildren : SNode → Option (List SNode) → SNode
  | .mk i nm t tx o br ci f l st e _, c => .mk i nm t tx o br ci f l st e c

/-- The external layout/stroke/effect collaborators, as pure functions
(`none` models «contributes no key»: an empty layout object, no stroke
colors, no effects). -/
structure Collaborators where
  layoutF : RawNode → Option RawNode → Option String
  strokesF : RawNode → Option String
  effectsF : RawNode → Option String

mutual

/-- `parseNode(n, parent)` (src/services/simplify-node-response.ts
196–306) over the modelled fields: identity copied; `componentId` only for
INSTANCE nodes; `text` only for truthy (nonempty) `characters`; `opacity`
only when present and ≠ 1; `borderRadius` from a numeric `cornerRadius`;
`fills` mapped through `parsePaint` when present and nonempty;
collaborator outputs attached; children filtered by `isVisible`, parsed
recursively with this node as parent, and attached only when the result is
nonempty; a raw `VECTOR` is re-tagged `IMAGE-SVG`.  `parseNode` never
returns null, so the source's null filter on children is a no-op. -/
noncomputable def parseNode (C : Collaborators) (parent : Option RawNode) :
    RawNode → SNode
  | n@(.mk id name ty _visible characters opacity cornerRadius componentId fills children) =>
    SNode.mk id name (if ty = "VECTOR" then "IMAGE-SVG" else ty)
      (match characters with
        | some s => if s ≠ "" then some s else none
        | none => none)
      (match opacity with
        | some o => if o ≠ 1 then some o else none
        | none => none)
      (cornerRadius.map (fun cr => jsNumToString cr ++ "px"))
      (if ty = "INSTANCE" then componentId else none)
      (if fills.length > 0 then some (fills.map parsePaint) else none)
      (C.layoutF n parent)
      (C.strokesF n)
      (C.effectsF n)
      (if children.length > 0 then
        (let ks := processNodes C (some n) children
         if ks.length > 0 then some ks else none)
       else none)

/-- The fused `nodes.filter(isVisible).map((n) => parseNode(n, parent))`
pipeline used at the top level (lines 159–162) and for children (lines
290–294). -/
noncomputable def processNodes (C : Collaborators) (parent : Option RawNode) :
    List RawNode → List SNode
  | [] => []
  | c :: rest =>
    if isVisible c then parseNode C parent c :: processNodes C parent rest
    else processNodes C parent rest

end

/-- The node list of `parseFigmaResponse` (lines 159–162): top-level nodes
filtered by visibility and parsed with no parent. -/
noncomputable def parseFigmaResponseNodes (C : Collaborators) (nodes : List RawNode) :
    List SNode :=
  processNodes C none nodes

/-- C4.  A node with explicit `visible: false` is entirely absent from the
simplifier output — it is filtered out before `parseNode` ever runs, so its
whole subtree of children is dropped with it — while its siblings are
processed exactly as they would be without it; the same holds for the
top-level node list of `parseFigmaResponse`. -/
theorem processNodes_drops_invisible (C : Collaborators) (parent : Option RawNode)
    (pre post : List RawNode) (n : RawNode) (h : n.visible = some false) :
    processNodes C parent (pre ++ n :: post) = processNodes C parent (pre ++ post)
    ∧ parseFigmaResponseNodes C (pre ++ n :: post) = parseFigmaResponseNodes C (pre ++ post) := by
  have hv : isVisible n = false := by
    rw [isVisible, h]
    rfl
  have hmain : ∀ (parent2 : Option RawNode),
      processNodes C parent2 (pre ++ n :: post) = processNodes C parent2 (pre ++ post) := by
    intro parent2
    induction pre with
    | nil =>
      simp only [List.nil_append, processNodes, hv, Bool.false_eq_true, if_false]
    | cons c rest ih =>
      simp only [List.cons_append, processNodes, List.append_eq, ih]
  exact ⟨hmain parent, hmain none⟩

/-- C4 witness: a concrete three-node sibling list whose middle node is
explicitly invisible and owns a child subtree; the constant-`none`
collaborators stand in for layout/stroke/effect. -/
theorem processNodes_drops_invisible_witness :
    (RawNode.mk "2" "hidden" "FRAME" (some false) none none none none []
        [RawNode.mk "2:1" "inner" "TEXT" none (some "hi") none none none [] []]).visible
      = some false
    ∧ (processNodes ⟨fun _ _ => none, fun _ => none, fun _ => none⟩ none
        ([RawNode.mk "1" "left" "FRAME" none none none none none [] []]
          ++ (RawNode.mk "2" "hidden" "FRAME" (some false) none none none none []
              [RawNode.mk "2:1" "inner" "TEXT" none (some "hi") none none none [] []])
          :: [RawNode.mk "3" "right" "FRAME" (some true) none none none none [] []])
        = processNodes ⟨fun _ _ => none, fun _ => none, fun _ => none⟩ none
          ([RawNode.mk "1" "left" "FRAME" none none none none none [] []]
            ++ [RawNode.mk "3" "right" "FRAME" (some true) none none none none [] []])
      ∧ parseFigmaResponseNodes ⟨fun _ _ => none, fun _ => none, fun _ => none⟩
          ([RawNode.mk "1" "left" "FRAME" none none none none none [] []]
            ++ (RawNode.mk "2" "hidden" "FRAME" (some false) none none none none []
                [RawNode.mk "2:1" "inner" "TEXT" none (some "hi") none none none [] []])
            :: [RawNode.mk "3" "right" "FRAME" (some true) none none none none [] []])
        = parseFigmaResponseNodes ⟨fun _ _ => none, fun _ => none, fun _ => none⟩
          ([RawNode.mk "1" "left" "FRAME" none none none none none [] []]
            ++ [RawNode.mk "3" "right" "FRAME" (some true) none none none none [] []])) :=
  ⟨rfl, processNodes_drops_invisible ⟨fun _ _ => none, fun _ => none, fun _ => none⟩ none
    [RawNode.mk "1" "left" "FRAME" none none none none none [] []]
    [RawNode.mk "3" "right" "FRAME" (some true) none none none none [] []]
    (RawNode.mk "2" "hidden" "FRAME" (some false) none none none none []
      [RawNode.mk "2:1" "inner" "TEXT" none (some "hi") none none none [] []])
    rfl⟩

/-! ## Depth limiting (src/figma-cli.ts 16–39 and
src/commands/get-figma-data.ts 25–43; the two copies are identical) -/

/-- `limitNodeDepth(nodes, maxLayers, currentLayer = 1)`: above `maxLayers`
return `[]`; at `maxLayers` shallow-clone each node with its `children` key
deleted; below it, recurse into nonempty children lists. -/
def limitNodeDepth (nodes : List SNode) (maxLayers currentLayer : ℕ) : List SNode :=
  if _h1 : currentLayer > maxLayers then []
  else
    nodes.map (fun node =>
      if _h2 : currentLayer = maxLayers then node.withChildren none
      else
        match node.children with
        | some cs =>
          if cs.length > 0 then
            node.withChildren (some (limitNodeDepth cs maxLayers (currentLayer + 1)))
          else node
        | none => node)
termination_by maxLayers + 1 - currentLayer
decreasing_by omega

/-- The claim-side description of depth limiting, indexed by the number of
remaining layers: one remaining layer keeps the nodes with the `children`
key removed; more remaining layers keep the node and recurse into its
children (if any) with one fewer remaining layer. -/
def limitDepthSpec : ℕ → List SNode → List SNode
  | 0, _ => []
  | 1, nodes => nodes.map (fun n => n.withChildren none)
  | m + 2, nodes =>
    nodes.map (fun n =>
      n.withChildren (n.children.map (fun cs => limitDepthSpec (m + 1) cs)))

theorem SNode.withChildren_children_self (n : SNode) : n.withChildren n.children = n := by
  cases n
  rfl

theorem limitDepthSpec_nil (k : ℕ) : limitDepthSpec k [] = [] := by
  match k with
  | 0 => rfl
  | 1 => rfl
  | _ + 2 => rfl

theorem limitNodeDepth_eq_spec (m c : ℕ) (h : c ≤ m) (nodes : List SNode) :
    limitNodeDepth nodes m c = limitDepthSpec (m + 1 - c) nodes := by
  rw [limitNodeDepth]
  rw [dif_neg (by omega : ¬ c > m)]
  by_cases hcm : c = m
  · subst hcm
    rw [show c + 1 - c = 1 from by omega]
    have hfun : (fun node : SNode =>
        if _h2 : c = c then node.withChildren none
        else
          match node.children with
          | some cs =>
            if cs.length > 0 then
              node.withChildren (some (limitNodeDepth cs c (c + 1)))
            else node
          | none => node) = (fun n : SNode => n.withChildren none) := by
      funext node
      rw [dif_pos rfl]
    rw [hfun, limitDepthSpec]
  · have hlt : c < m := by omega
    rw [show m + 1 - c = (m - 1 - c) + 2 from by omega]
    have hfun : ∀ node : SNode,
        (if _h2 : c = m then node.withChildren none
         else
           match node.children with
           | some cs =>
             if cs.length > 0 then
               node.withChildren (some (limitNodeDepth cs m (c + 1)))
             else node
           | none => node)
        = node.withChildren (node.children.map (fun cs => limitDepthSpec (m - 1 - c + 1) cs)) := by
      intro node
      rw [dif_neg hcm]
      cases hch : node.children with
      | none =>
        show node = node.withChildren none
        rw [← hch]
        exact (SNode.withChildren_children_self node).symm
      | some cs =>
        show (if cs.length > 0 then node.withChildren (some (limitNodeDepth cs m (c + 1)))
            else node)
          = node.withChildren (some (limitDepthSpec (m - 1 - c + 1) cs))
        by_cases hlen : cs.length > 0
        · rw [if_pos hlen]
          rw [limitNodeDepth_eq_spec m (c + 1) (by omega) cs]
          rw [show m + 1 - (c + 1) = m - 1 - c + 1 from by omega]
        · rw [if_neg hlen]
          have hnil : cs = [] := List.length_eq_zero.mp (by omega)
          subst hnil
          rw [limitDepthSpec_nil]
          rw [show node.withChildren (some []) = node from by
            rw [← hch, SNode.withChildren_children_self]]
    rw [limitDepthSpec]
    exact List.map_congr_left (fun node _ => hfun node)
termination_by m - c
decreasing_by omega

/-- C6.  For every node list and `maxLayers ≥ 1`, `limitNodeDepth` keeps
exactly the nodes of layers `1..maxLayers` (it agrees with the claim-side
`limitDepthSpec`, which strips the `children` key at the last kept layer
and recurses above it, so no node below layer `maxLayers` survives and
nodes at layer `maxLayers` keep all other fields); in particular depth 1
yields the top-level nodes with no `children` key, and depth 2 keeps
exactly one level of descendants and strips the grandchildren. -/
theorem limitNodeDepth_layers (nodes : List SNode) (m : ℕ) (h : 1 ≤ m) :
    limitNodeDepth nodes m 1 = limitDepthSpec m nodes
    ∧ limitNodeDepth nodes 1 1 = nodes.map (fun n => n.withChildren none)
    ∧ limitNodeDepth nodes 2 1 = nodes.map (fun n =>
        n.withChildren (n.children.map (fun cs => cs.map (fun c => c.withChildren none)))) := by
  refine ⟨?_, ?_, ?_⟩
  · have h2 := limitNodeDepth_eq_spec m 1 h nodes
    rwa [show m + 1 - 1 = m from by omega] at h2
  · have h2 := limitNodeDepth_eq_spec 1 1 (le_refl 1) nodes
    rw [show 1 + 1 - 1 = 1 from rfl] at h2
    rw [h2, limitDepthSpec]
  · have h2 := limitNodeDepth_eq_spec 2 1 (by omega) nodes
    rw [show 2 + 1 - 1 = 2 from rfl] at h2
    rw [h2]
    show limitDepthSpec (0 + 2) nodes = _
    rw [limitDepthSpec]
    refine List.map_congr_left (fun node _ => congrArg node.withChildren ?_)
    cases node.children with
    | none => rfl
    | some cs =>
      show some (limitDepthSpec 1 cs) = some (cs.map (fun c => c.withChildren none))
      rw [limitDepthSpec]

/-- C6 witness: the theorem applied with `maxLayers = 2` to a concrete
three-layer tree. -/
theorem limitNodeDepth_layers_witness :
    1 ≤ 2
    ∧ (limitNodeDepth
        [SNode.mk "r" "R" "FRAME" none none none none none none none none
          (some [SNode.mk "c" "C" "FRAME" none none none none none none none none
            (some [SNode.mk "g" "G" "TEXT" none none none none none none none none none])])]
        2 1
        = limitDepthSpec 2
          [SNode.mk "r" "R" "FRAME" none none none none none none none none
            (some [SNode.mk "c" "C" "FRAME" none none none none none none none none
              (some [SNode.mk "g" "G" "TEXT" none none none none none none none none none])])]
      ∧ limitNodeDepth
          [SNode.mk "r" "R" "FRAME" none none none none none none none none
            (some [SNode.mk "c" "C" "FRAME" none none none none none none none none
              (some [SNode.mk "g" "G" "TEXT" none none none none none none none none none])])]
          1 1
        = List.map (fun n => n.withChildren none)
          [SNode.mk "r" "R" "FRAME" none none none none none none none none
            (some [SNode.mk "c" "C" "FRAME" none none none none none none none none
              (some [SNode.mk "g" "G" "TEXT" none none none none none none none none none])])]
      ∧ limitNodeDepth
          [SNode.mk "r" "R" "FRAME" none none none none none none none none
            (some [SNode.mk "c" "C" "FRAME" none none none none none none none none
              (some [SNode.mk "g" "G" "TEXT" none none none none none none none none none])])]
          2 1
        = List.map (fun n =>
            n.withChildren (n.children.map (fun cs => cs.map (fun c => c.withChildren none))))
          [SNode.mk "r" "R" "FRAME" none none none none none none none none
            (some [SNode.mk "c" "C" "FRAME" none none none none none none none none
              (some [SNode.mk "g" "G" "TEXT" none none none none none none none none none])])]) :=
  ⟨by decide,
    limitNodeDepth_layers
      [SNode.mk "r" "R" "FRAME" none none none none none none none none
        (some [SNode.mk "c" "C" "FRAME" none none none none none none none none
          (some [SNode.mk "g" "G" "TEXT" none none none none none none none none none])])]
      2 (by decide)⟩

end FigmaCli
